import Mathlib

/-!
Shallow embedding of the SomaFM terminal client (`src/main.go`): the
Bubble Tea `model`, its `Update` state machine, and the `View` projector.

Modelling conventions:
* `cursor` is a Go `int`, embedded as `Int`.
* The player handle (`*exec.Cmd`) is opaque, embedded as `Nat`; the
  `player` field is `Option Nat` (`nil` pointer = `none`).
* `m.selected` is a `*Channel` pointing into the backing array of
  `m.channels`.  A pointer into a Go slice is identified by the backing
  array it points into and the element index, so it is embedded as
  `Option (Nat × Int)`: generation number (how many `channelsMsg`
  replacements had happened when the pointer was taken) and index.
  `oldArrays` keeps the superseded backing arrays so the pointer can
  still be dereferenced after a wholesale catalog replacement.
* A Go panic (out-of-range slice index) is embedded as `none`: `Update`
  returns `Option (model × List Effect)`.
* A returned `tea.Cmd` is embedded as a `List Effect`; `tea.Sequence`
  ordering is the list order, and `nil` is `[]`.
* The blocking `getStreamURL` call inside the `enter` handler is
  embedded as an oracle `Resolver` parameter.
* `lipgloss` style `Render` calls only add terminal colour codes; they
  are embedded as the identity on the rendered text.
-/

namespace SomaFM

/-- One SomaFM channel, the XML record of `src/main.go` (`Channel`). -/
structure Channel where
  id : String
  title : String
  description : String
  genre : String
  image : String
  dj : String
  listeners : Int
  fastPLS : String
deriving DecidableEq

/-- `playerState` enumeration: `stopped`, `playing`. -/
inductive PlayerState where
  | stopped
  | playing
deriving DecidableEq

/-- `titleWidth = 30` from the Go const block. -/
def titleWidth : Nat := 30

/-- `genreWidth = 25` from the Go const block. -/
def genreWidth : Nat := 25

/-- `statsWidth = 10` from the Go const block (declared, unused). -/
def statsWidth : Nat := 10

/-- The application state (`model` in `src/main.go`), plus the
`oldArrays` history that realises pointer identity for `selected`. -/
structure model where
  channels : List Channel
  cursor : Int
  selected : Option (Nat × Int)
  err : Option String
  loading : Bool
  playerState : PlayerState
  player : Option Nat
  oldArrays : List (List Channel)
deriving DecidableEq

/-- `initialModel()`: everything zero-valued except `loading = true`. -/
def initialModel : model :=
  { channels := [], cursor := 0, selected := none, err := none,
    loading := true, playerState := .stopped, player := none, oldArrays := [] }

/-- The key strings handled by `Update`'s `tea.KeyMsg` switch. -/
inductive Key where
  | quit
  | up
  | down
  | activate
deriving DecidableEq

/-- The message types consumed by `Update`. -/
inductive Msg where
  | key (k : Key)
  | channelsMsg (chs : List Channel)
  | errMsg (e : String)
  | startPlaybackMsg (h : Nat)
  | stopPlaybackMsg
  | playbackErrorMsg (e : String)
deriving DecidableEq

/-- The commands `Update` can return: `stopPlayback cmd`,
`startPlayback url`, the closure delivering `errMsg`, and `tea.Quit`. -/
inductive Effect where
  | stop (h : Option Nat)
  | start (url : String)
  | emitErr (e : String)
  | quit
deriving DecidableEq

/-- Oracle for `getStreamURL`: maps a pls URL to a stream URL or error. -/
abbrev Resolver := String → Except String String

/-- The generation number of the current `channels` backing array. -/
def curGen (m : model) : Nat := m.oldArrays.length

/-- The "switch" part of the `enter` handler (lines 188-202 of
`src/main.go`): build `cmds` with a stop for any live player, take
`&m.channels[m.cursor]` (panic = `none` when out of range), resolve the
stream URL, and on success schedule the start after the stop; on
resolution failure return only the `errMsg`-delivering command,
discarding `cmds`. -/
def switchAction (resolve : Resolver) (m : model) : Option (model × List Effect) :=
  if 0 ≤ m.cursor ∧ m.cursor < (m.channels.length : Int) then
    match m.channels.get? m.cursor.toNat with
    | none => none
    | some ch =>
      let m1 := { m with selected := some (curGen m, m.cursor) }
      match resolve ch.fastPLS with
      | .error e => some (m1, [Effect.emitErr e])
      | .ok url =>
          some (m1, (if m.player.isSome then [Effect.stop m.player] else [])
                      ++ [Effect.start url])
  else none

/-- `func (m model) Update(msg tea.Msg) (tea.Model, tea.Cmd)`.
`none` is a Go panic (the out-of-range `&m.channels[m.cursor]`). -/
def update (resolve : Resolver) (m : model) : Msg → Option (model × List Effect)
  | .key .quit =>
      if m.player.isSome then some (m, [Effect.stop m.player, Effect.quit])
      else some (m, [Effect.quit])
  | .key .up =>
      if 0 < m.cursor then some ({ m with cursor := m.cursor - 1 }, [])
      else some (m, [])
  | .key .down =>
      if m.cursor < (m.channels.length : Int) - 1 then
        some ({ m with cursor := m.cursor + 1 }, [])
      else some (m, [])
  | .key .activate =>
      if m.playerState = .playing then
        if 0 ≤ m.cursor ∧ m.cursor < (m.channels.length : Int) then
          if m.selected = some (curGen m, m.cursor) then
            some ({ m with selected := none }, [Effect.stop m.player])
          else switchAction resolve m
        else none
      else switchAction resolve m
  | .startPlaybackMsg h =>
      some ({ m with playerState := .playing, player := some h }, [])
  | .stopPlaybackMsg =>
      some ({ m with playerState := .stopped, player := none }, [])
  | .playbackErrorMsg e =>
      some ({ m with err := some e, playerState := .stopped, player := none }, [])
  | .channelsMsg chs =>
      some ({ m with oldArrays := m.oldArrays ++ [m.channels],
                     channels := chs, loading := false }, [])
  | .errMsg e => some ({ m with err := some e, loading := false }, [])

/-- Run a finite event sequence through `update`, discarding the
scheduled effects; `none` as soon as one step panics. -/
def applyEvents (resolve : Resolver) : model → List Msg → Option model
  | m, [] => some m
  | m, e :: es =>
      match update resolve m e with
      | none => none
      | some (m', _) => applyEvents resolve m' es

/-- Dereference a `selected` pointer against the current or a
superseded backing array. -/
def lookupPtr (m : model) (p : Nat × Int) : Option Channel :=
  if p.1 = m.oldArrays.length then
    if 0 ≤ p.2 then m.channels.get? p.2.toNat else none
  else
    match m.oldArrays.get? p.1 with
    | some arr => if 0 ≤ p.2 then arr.get? p.2.toNat else none
    | none => none

/-- Go `fmt.Sprintf` left-justified padding to a fixed width. -/
def padRight (s : String) (w : Nat) : String :=
  s ++ String.mk (List.replicate (w - s.length) ' ')

/-- Truncate to `w - 3` with an ellipsis when longer, as in `View`. -/
def truncateTo (s : String) (w : Nat) : String :=
  if s.length > w - 3 then (s.take (w - 3)) ++ "..." else s

/-- One channel row of `View`'s loop (style `Render` = identity). -/
def renderRow (m : model) (i : Nat) (ch : Channel) : String :=
  let mark := if (i : Int) = m.cursor then "> " else "  "
  let t := padRight (truncateTo ch.title titleWidth) titleWidth
  let g := padRight (truncateTo ch.genre genreWidth) genreWidth
  mark ++ t ++ " " ++ g ++ " [" ++ toString ch.listeners ++ "]\n"

/-- `func (m model) View() string`. -/
def View (m : model) : String :=
  if m.loading then "Loading channels...\n"
  else
    match m.err with
    | some e => "Error: " ++ e ++ "\n"
    | none =>
        let s := "🎵 SomaFM Channels\n\n"
        let s := s ++ String.join (m.channels.enum.map fun p => renderRow m p.1 p.2)
        let s :=
          if m.playerState = .playing then
            match m.selected with
            | some p =>
                s ++ "\n" ++ "Now Playing: " ++ (((lookupPtr m p).map Channel.title).getD "")
            | none => s
          else s
        s ++ "\n(↑/↓) Navigate • (enter) Play/Stop • (q) Quit\n"

/-- `true` when the first character list starts the second. -/
def leadsChars : List Char → List Char → Bool
  | [], _ => true
  | _ :: _, [] => false
  | a :: as, b :: bs => a = b && leadsChars as bs

/-- `true` when the first character list occurs inside the second. -/
def insideChars (needle : List Char) : List Char → Bool
  | [] => leadsChars needle []
  | b :: bs => leadsChars needle (b :: bs) || insideChars needle bs

/-- `true` when `needle` occurs as a contiguous substring of `hay`. -/
def containsSub (hay needle : String) : Bool :=
  insideChars needle.data hay.data

/-- A fixed trivially-failing resolver, for concrete instantiations. -/
def resFail : Resolver := fun _ => Except.error "no stream URL found in PLS file"

/-- A fixed always-succeeding resolver, for concrete instantiations. -/
def resOk : Resolver := fun _ => Except.ok "urlA"

/-- A concrete channel used in concrete instantiations. -/
def chA : Channel :=
  { id := "groovesalad", title := "Groove Salad", description := "chilled beats",
    genre := "ambient", image := "", dj := "Rusty", listeners := 100,
    fastPLS := "plsA" }

/-- A second concrete channel used in concrete instantiations. -/
def chB : Channel :=
  { id := "dronezone", title := "Drone Zone", description := "atmospheric textures",
    genre := "ambient space", image := "", dj := "Rusty", listeners := 50,
    fastPLS := "plsB" }

/-- The switch branch only rewrites `selected`: every other state field
comes through unchanged. -/
lemma switchAction_fields (resolve : Resolver) (m m' : model) (fx : List Effect)
    (h : switchAction resolve m = some (m', fx)) :
    m'.player = m.player ∧ m'.playerState = m.playerState ∧ m'.err = m.err ∧
      m'.channels = m.channels ∧ m'.cursor = m.cursor ∧ m'.loading = m.loading ∧
      m'.oldArrays = m.oldArrays := by
  unfold switchAction at h
  split at h
  · split at h
    · exact absurd h (by simp)
    · split at h <;>
        (simp only [Option.some.injEq, Prod.mk.injEq] at h
         obtain ⟨h1, -⟩ := h
         subst h1
         simp)
  · exact absurd h (by simp)

/-- One `update` step preserves the handle/phase equivalence. -/
lemma update_handle_step (resolve : Resolver) (m : model) (e : Msg) (m' : model)
    (fx : List Effect) (h : update resolve m e = some (m', fx))
    (hInv : m.player.isSome = true ↔ m.playerState = PlayerState.playing) :
    m'.player.isSome = true ↔ m'.playerState = PlayerState.playing := by
  cases e with
  | key k =>
    cases k with
    | quit =>
        simp only [update] at h
        split at h <;>
          (simp only [Option.some.injEq, Prod.mk.injEq] at h
           obtain ⟨h1, -⟩ := h; subst h1; exact hInv)
    | up =>
        simp only [update] at h
        split at h <;>
          (simp only [Option.some.injEq, Prod.mk.injEq] at h
           obtain ⟨h1, -⟩ := h; subst h1; simpa using hInv)
    | down =>
        simp only [update] at h
        split at h <;>
          (simp only [Option.some.injEq, Prod.mk.injEq] at h
           obtain ⟨h1, -⟩ := h; subst h1; simpa using hInv)
    | activate =>
        simp only [update] at h
        split at h
        · split at h
          · split at h
            · simp only [Option.some.injEq, Prod.mk.injEq] at h
              obtain ⟨h1, -⟩ := h; subst h1; simpa using hInv
            · obtain ⟨hp, hs, -⟩ := switchAction_fields resolve m m' fx h
              rw [hp, hs]; exact hInv
          · exact absurd h (by simp)
        · obtain ⟨hp, hs, -⟩ := switchAction_fields resolve m m' fx h
          rw [hp, hs]; exact hInv
  | channelsMsg chs =>
      simp only [update, Option.some.injEq, Prod.mk.injEq] at h
      obtain ⟨h1, -⟩ := h; subst h1; simpa using hInv
  | errMsg e =>
      simp only [update, Option.some.injEq, Prod.mk.injEq] at h
      obtain ⟨h1, -⟩ := h; subst h1; simpa using hInv
  | startPlaybackMsg hdl =>
      simp only [update, Option.some.injEq, Prod.mk.injEq] at h
      obtain ⟨h1, -⟩ := h; subst h1; simp
  | stopPlaybackMsg =>
      simp only [update, Option.some.injEq, Prod.mk.injEq] at h
      obtain ⟨h1, -⟩ := h; subst h1; simp
  | playbackErrorMsg e =>
      simp only [update, Option.some.injEq, Prod.mk.injEq] at h
      obtain ⟨h1, -⟩ := h; subst h1; simp

/-- The handle/phase equivalence is preserved along any event run. -/
lemma applyEvents_handle (resolve : Resolver) (evs : List Msg) :
    ∀ m m' : model, (m.player.isSome = true ↔ m.playerState = PlayerState.playing) →
      applyEvents resolve m evs = some m' →
      (m'.player.isSome = true ↔ m'.playerState = PlayerState.playing) := by
  induction evs with
  | nil =>
      intro m m' hInv h
      simp only [applyEvents, Option.some.injEq] at h
      subst h; exact hInv
  | cons e es ih =>
      intro m m' hInv h
      unfold applyEvents at h
      cases hu : update resolve m e with
      | none => rw [hu] at h; exact absurd h (by simp)
      | some p =>
          rw [hu] at h
          exact ih p.1 m' (update_handle_step resolve m e p.1 p.2 hu hInv) h

/-- C1: after any finite sequence of events (that completes without a
panic) applied to the initial state, the player handle is present iff
the playback phase is `playing`; this covers in particular the states
reached right after `startPlaybackMsg`, `stopPlaybackMsg` and
`playbackErrorMsg`. -/
theorem handle_iff_playing (resolve : Resolver) (evs : List Msg) (m' : model)
    (h : applyEvents resolve initialModel evs = some m') :
    m'.player.isSome = true ↔ m'.playerState = PlayerState.playing :=
  applyEvents_handle resolve evs initialModel m' (by simp [initialModel]) h

/-- The state reached from `initialModel` by `startPlaybackMsg 5`. -/
def mC1 : model :=
  { initialModel with playerState := PlayerState.playing, player := some 5 }

/-- Witness for C1 at the concrete run `[startPlaybackMsg 5]`. -/
theorem handle_iff_playing_witness :
    applyEvents resFail initialModel [Msg.startPlaybackMsg 5] = some mC1
    ∧ (mC1.player.isSome = true ↔ mC1.playerState = PlayerState.playing) :=
  ⟨rfl, handle_iff_playing resFail [Msg.startPlaybackMsg 5] mC1 rfl⟩

/-- C10: the playback-lifecycle completion events (`startPlaybackMsg`,
`stopPlaybackMsg`, `playbackErrorMsg`) never panic and leave the
channel sequence, the cursor and the loading flag unchanged. -/
theorem playback_msgs_preserve_frame (resolve : Resolver) (m : model) (hdl : Nat)
    (e : String) :
    (update resolve m (Msg.startPlaybackMsg hdl)).map
        (fun q => (q.1.channels, q.1.cursor, q.1.loading))
      = some (m.channels, m.cursor, m.loading)
    ∧ (update resolve m Msg.stopPlaybackMsg).map
        (fun q => (q.1.channels, q.1.cursor, q.1.loading))
      = some (m.channels, m.cursor, m.loading)
    ∧ (update resolve m (Msg.playbackErrorMsg e)).map
        (fun q => (q.1.channels, q.1.cursor, q.1.loading))
      = some (m.channels, m.cursor, m.loading) := by
  refine ⟨?_, ?_, ?_⟩ <;> simp [update]

/-- C4, counterexample: after loading one channel, activating it
(resolution succeeds), `startPlaybackMsg`, then `stopPlaybackMsg`, the
selection is still present while the phase is `stopped` — so
`selection present ⇒ phase = playing` fails, and `stopPlaybackMsg`
did not clear the selection. -/
theorem selection_present_while_stopped_cex :
    applyEvents resOk initialModel
        [Msg.channelsMsg [chA], Msg.key Key.activate,
         Msg.startPlaybackMsg 3, Msg.stopPlaybackMsg]
      = some { channels := [chA], cursor := 0, selected := some (1, 0),
               err := none, loading := false, playerState := PlayerState.stopped,
               player := none, oldArrays := [[]] }
    ∧ (some (1, 0) : Option (Nat × Int)).isSome = true
    ∧ PlayerState.stopped ≠ PlayerState.playing := by
  refine ⟨rfl, rfl, by decide⟩

/-- C4, amended: `stopPlaybackMsg` and `playbackErrorMsg` set the phase
to `stopped` and clear the handle, but leave the selection unchanged
(only a toggle-off `KeyActivate` clears it); consequently a present
selection does not imply phase `playing`. -/
theorem playback_end_preserves_selection (resolve : Resolver) (m : model) (e : String) :
    (update resolve m Msg.stopPlaybackMsg).map
        (fun q => (q.1.selected, q.1.player, q.1.playerState, q.2))
      = some (m.selected, none, PlayerState.stopped, [])
    ∧ (update resolve m (Msg.playbackErrorMsg e)).map
        (fun q => (q.1.selected, q.1.player, q.1.playerState, q.1.err, q.2))
      = some (m.selected, none, PlayerState.stopped, some e, []) := by
  refine ⟨?_, ?_⟩ <;> simp [update]

/-- C5: with phase `playing` and the selection pointing at the channel
under the (in-range) cursor, `KeyActivate` is a toggle-off: it clears
the selection and schedules exactly one stop effect for the current
player handle — no start effect — leaving the channel sequence and the
cursor (indeed every other field) unchanged. -/
theorem toggle_off_clears_selection (resolve : Resolver) (m : model) (hdl : Nat)
    (hplay : m.playerState = PlayerState.playing)
    (hpl : m.player = some hdl)
    (hc0 : 0 ≤ m.cursor)
    (hlt : m.cursor < (m.channels.length : Int))
    (hsel : m.selected = some (curGen m, m.cursor)) :
    update resolve m (Msg.key Key.activate)
      = some ({ m with selected := none }, [Effect.stop (some hdl)]) := by
  simp [update, hplay, hc0, hlt, hsel, hpl]

/-- A playing state on the only channel, selection at the cursor. -/
def mC5 : model :=
  { channels := [chA], cursor := 0, selected := some (1, 0), err := none,
    loading := false, playerState := PlayerState.playing, player := some 7,
    oldArrays := [[]] }

/-- Witness for C5 at a concrete playing state. -/
theorem toggle_off_clears_selection_witness :
    mC5.playerState = PlayerState.playing ∧ mC5.player = some 7
    ∧ (0 : Int) ≤ mC5.cursor ∧ mC5.cursor < (mC5.channels.length : Int)
    ∧ mC5.selected = some (curGen mC5, mC5.cursor)
    ∧ update resFail mC5 (Msg.key Key.activate)
        = some ({ mC5 with selected := none }, [Effect.stop (some 7)]) :=
  ⟨rfl, rfl, by decide, by decide, rfl,
    toggle_off_clears_selection resFail mC5 7 rfl rfl (by decide) (by decide) rfl⟩

/-- C2: with phase `playing` on channel A (handle `hdl`, selection
`pA`) and the cursor on a different channel B whose stream URL
resolves to `url`, `KeyActivate` schedules the stop effect for A's
handle strictly before the start effect for `url`: the effect list is
exactly `[stop (some hdl), start url]`, sequenced in that order. -/
theorem stop_before_start (resolve : Resolver) (m : model) (hdl : Nat)
    (pA : Nat × Int) (chB' : Channel) (url : String)
    (hplay : m.playerState = PlayerState.playing)
    (hpl : m.player = some hdl)
    (hsel : m.selected = some pA)
    (hne : pA ≠ (curGen m, m.cursor))
    (hc0 : 0 ≤ m.cursor)
    (hget : m.channels.get? m.cursor.toNat = some chB')
    (hres : resolve chB'.fastPLS = Except.ok url) :
    update resolve m (Msg.key Key.activate)
      = some ({ m with selected := some (curGen m, m.cursor) },
              [Effect.stop (some hdl), Effect.start url]) := by
  have hn : m.cursor.toNat < m.channels.length := (List.get?_eq_some.mp hget).1
  have hlen : m.cursor < (m.channels.length : Int) := by omega
  have hb : 0 ≤ m.cursor ∧ m.cursor < (m.channels.length : Int) := ⟨hc0, hlen⟩
  have hnsel : ¬ m.selected = some (curGen m, m.cursor) := by
    rw [hsel]; simpa using hne
  simp only [update]
  rw [if_pos hplay, if_pos hb, if_neg hnsel]
  simp only [switchAction]
  rw [if_pos hb, hget]
  dsimp only
  rw [hres]
  dsimp only
  rw [hpl]
  rfl

/-- A state playing channel A with the cursor moved to channel B. -/
def mC2 : model :=
  { channels := [chA, chB], cursor := 1, selected := some (1, 0), err := none,
    loading := false, playerState := PlayerState.playing, player := some 7,
    oldArrays := [[]] }

/-- Resolver succeeding exactly on channel B's pls URL. -/
def resB : Resolver :=
  fun u => if u = "plsB" then Except.ok "urlB"
           else Except.error "no stream URL found in PLS file"

/-- Witness for C2 at a concrete switching state. -/
theorem stop_before_start_witness :
    mC2.playerState = PlayerState.playing ∧ mC2.player = some 7
    ∧ mC2.selected = some (1, 0) ∧ ((1, 0) : Nat × Int) ≠ (curGen mC2, mC2.cursor)
    ∧ (0 : Int) ≤ mC2.cursor ∧ mC2.channels.get? mC2.cursor.toNat = some chB
    ∧ resB chB.fastPLS = Except.ok "urlB"
    ∧ update resB mC2 (Msg.key Key.activate)
        = some ({ mC2 with selected := some (curGen mC2, mC2.cursor) },
                [Effect.stop (some 7), Effect.start "urlB"]) :=
  ⟨rfl, rfl, rfl, by decide, by decide, by decide, rfl,
    stop_before_start resB mC2 7 (1, 0) chB "urlB" rfl rfl rfl (by decide)
      (by decide) (by decide) rfl⟩

/-- The clamp bound on the cursor: `max (N-1) 0` for sequence length `N`. -/
def maxCur (m : model) : Int := max ((m.channels.length : Int) - 1) 0

/-- `KeyUp` computes to a clamped decrement with no effect. -/
lemma update_up (resolve : Resolver) (m : model) :
    update resolve m (Msg.key Key.up)
      = some (if 0 < m.cursor then { m with cursor := m.cursor - 1 } else m, []) := by
  by_cases hc : 0 < m.cursor <;> simp [update, hc]

/-- `KeyDown` computes to a clamped increment with no effect. -/
lemma update_down (resolve : Resolver) (m : model) :
    update resolve m (Msg.key Key.down)
      = some (if m.cursor < (m.channels.length : Int) - 1 then
                { m with cursor := m.cursor + 1 } else m, []) := by
  by_cases hc : m.cursor < (m.channels.length : Int) - 1 <;> simp [update, hc]

/-- Folding any run of `KeyUp`/`KeyDown` events keeps the channel list
and keeps the cursor inside `[0, max (N-1) 0]`. -/
lemma moves_fold (evs : List Msg) :
    ∀ (resolve : Resolver) (m m' : model),
      (∀ e ∈ evs, e = Msg.key Key.up ∨ e = Msg.key Key.down) →
      applyEvents resolve m evs = some m' →
      m'.channels = m.channels ∧
        ((0 ≤ m.cursor ∧ m.cursor ≤ maxCur m) →
          (0 ≤ m'.cursor ∧ m'.cursor ≤ maxCur m)) := by
  induction evs with
  | nil =>
      intro resolve m m' _ h
      simp only [applyEvents, Option.some.injEq] at h
      subst h; exact ⟨rfl, id⟩
  | cons e es ih =>
      intro resolve m m' hall h
      have hmem := hall e (List.mem_cons_self e es)
      have htail : ∀ e' ∈ es, e' = Msg.key Key.up ∨ e' = Msg.key Key.down :=
        fun e' he' => hall e' (List.mem_cons_of_mem e he')
      rcases hmem with he | he <;> subst he
      · simp only [applyEvents, update_up] at h
        by_cases hc : 0 < m.cursor
        · rw [if_pos hc] at h
          obtain ⟨hch, hcur⟩ := ih resolve _ m' htail h
          refine ⟨by simpa using hch, fun hb => ?_⟩
          have := hcur (by constructor <;> (simp [maxCur] at hb ⊢; omega))
          simp only [maxCur] at this hb ⊢
          simp at this
          omega
        · rw [if_neg hc] at h
          exact ih resolve m m' htail h
      · simp only [applyEvents, update_down] at h
        by_cases hc : m.cursor < (m.channels.length : Int) - 1
        · rw [if_pos hc] at h
          obtain ⟨hch, hcur⟩ := ih resolve _ m' htail h
          refine ⟨by simpa using hch, fun hb => ?_⟩
          have := hcur (by constructor <;> (simp [maxCur] at hb ⊢; omega))
          simp only [maxCur] at this hb ⊢
          simp at this
          omega
        · rw [if_neg hc] at h
          exact ih resolve m m' htail h

/-- C6: (1) over any run of `KeyUp`/`KeyDown` events from a state whose
cursor is in `[0, max (N-1) 0]`, the cursor stays in that interval and
the channel sequence is untouched; (2) on an empty sequence both
movement keys leave the state unchanged and schedule no effect. -/
theorem cursor_clamped :
    (∀ (resolve : Resolver) (evs : List Msg) (m m' : model),
      (∀ e ∈ evs, e = Msg.key Key.up ∨ e = Msg.key Key.down) →
      0 ≤ m.cursor → m.cursor ≤ maxCur m →
      applyEvents resolve m evs = some m' →
      (0 ≤ m'.cursor ∧ m'.cursor ≤ maxCur m ∧ m'.channels = m.channels))
    ∧ (∀ (resolve : Resolver) (m : model), m.channels = [] → m.cursor = 0 →
        update resolve m (Msg.key Key.up) = some (m, [])
        ∧ update resolve m (Msg.key Key.down) = some (m, [])) := by
  constructor
  · intro resolve evs m m' hall h0 h1 h
    obtain ⟨hch, hcur⟩ := moves_fold evs resolve m m' hall h
    obtain ⟨hc0, hc1⟩ := hcur ⟨h0, h1⟩
    exact ⟨hc0, hc1, hch⟩
  · intro resolve m hch hc
    constructor
    · rw [update_up, hc]; rfl
    · rw [update_down, hch, hc]; rfl

/-- A two-channel state with the cursor at the origin. -/
def mC6 : model := { initialModel with channels := [chA, chB] }

/-- Witness for C6 at a concrete run `[down, down, up]` ending at
cursor 0, and at the empty-catalog no-op case. -/
theorem cursor_clamped_witness :
    (0 ≤ ({ mC6 with cursor := 0 } : model).cursor
      ∧ ({ mC6 with cursor := 0 } : model).cursor ≤ maxCur mC6
      ∧ ({ mC6 with cursor := 0 } : model).channels = mC6.channels)
    ∧ (update resFail initialModel (Msg.key Key.up) = some (initialModel, [])
        ∧ update resFail initialModel (Msg.key Key.down) = some (initialModel, [])) :=
  ⟨cursor_clamped.1 resFail [Msg.key Key.down, Msg.key Key.down, Msg.key Key.up]
      mC6 { mC6 with cursor := 0 } (by decide) (by decide) (by decide) rfl,
    cursor_clamped.2 resFail initialModel rfl rfl⟩

/-- A loading state that also carries an error and a non-empty catalog. -/
def mC7a : model :=
  { channels := [chA], cursor := 0, selected := none, err := some "boom",
    loading := true, playerState := PlayerState.stopped, player := none,
    oldArrays := [[]] }

/-- The same state after loading has finished. -/
def mC7b : model := { mC7a with loading := false }

/-- C7, counterexample: while `loading` is set the frame is the loading
indicator and does not show the stored error at all; and once loading
is finished, an error state with a non-empty catalog renders only the
error line — the channel list (channel `chA`'s title) is suppressed.
So the error is not shown regardless of the loading flag, and error
display and list display are mutually exclusive. -/
theorem error_display_exclusive_cex :
    View mC7a = "Loading channels...\n"
    ∧ containsSub (View mC7a) "boom" = false
    ∧ View mC7b = "Error: boom\n"
    ∧ containsSub (View mC7b) "Groove Salad" = false
    ∧ mC7b.channels = [chA] := by
  exact ⟨rfl, by decide, rfl, by decide, rfl⟩

/-- C7, amended: when `loading` is set the frame is always the loading
indicator (the error is not shown); when `loading` is cleared and the
last error is present the frame is exactly the error line, so the
channel list is never rendered together with an error. -/
theorem error_display_suppresses_list (m : model) (e : String) :
    View { m with loading := true } = "Loading channels...\n"
    ∧ View { m with loading := false, err := some e } = "Error: " ++ e ++ "\n" := by
  constructor <;> simp [View]

/-- C8, amended: no event ever clears the last error — once `err` is
set it stays set after any non-panicking `update` step (at most
overwritten by a newer error); in particular a successful completion
of the same kind that produced it does not clear it. -/
theorem last_error_persists (resolve : Resolver) (m : model) (e : String)
    (msg : Msg) (m' : model) (fx : List Effect)
    (herr : m.err = some e)
    (h : update resolve m msg = some (m', fx)) :
    m'.err.isSome = true := by
  cases msg with
  | key k =>
    cases k with
    | quit =>
        simp only [update] at h
        split at h <;>
          (simp only [Option.some.injEq, Prod.mk.injEq] at h
           obtain ⟨h1, -⟩ := h; subst h1; simp [herr])
    | up =>
        simp only [update] at h
        split at h <;>
          (simp only [Option.some.injEq, Prod.mk.injEq] at h
           obtain ⟨h1, -⟩ := h; subst h1; simp [herr])
    | down =>
        simp only [update] at h
        split at h <;>
          (simp only [Option.some.injEq, Prod.mk.injEq] at h
           obtain ⟨h1, -⟩ := h; subst h1; simp [herr])
    | activate =>
        simp only [update] at h
        split at h
        · split at h
          · split at h
            · simp only [Option.some.injEq, Prod.mk.injEq] at h
              obtain ⟨h1, -⟩ := h; subst h1; simp [herr]
            · obtain ⟨-, -, he, -⟩ := switchAction_fields resolve m m' fx h
              rw [he, herr]; rfl
          · exact absurd h (by simp)
        · obtain ⟨-, -, he, -⟩ := switchAction_fields resolve m m' fx h
          rw [he, herr]; rfl
  | channelsMsg chs =>
      simp only [update, Option.some.injEq, Prod.mk.injEq] at h
      obtain ⟨h1, -⟩ := h; subst h1; simp [herr]
  | errMsg e' =>
      simp only [update, Option.some.injEq, Prod.mk.injEq] at h
      obtain ⟨h1, -⟩ := h; subst h1; simp
  | startPlaybackMsg hdl =>
      simp only [update, Option.some.injEq, Prod.mk.injEq] at h
      obtain ⟨h1, -⟩ := h; subst h1; simp [herr]
  | stopPlaybackMsg =>
      simp only [update, Option.some.injEq, Prod.mk.injEq] at h
      obtain ⟨h1, -⟩ := h; subst h1; simp [herr]
  | playbackErrorMsg e' =>
      simp only [update, Option.some.injEq, Prod.mk.injEq] at h
      obtain ⟨h1, -⟩ := h; subst h1; simp

/-- A state carrying a catalog-fetch error. -/
def mC8 : model := { initialModel with err := some "network unreachable" }

/-- `mC8` after a successful catalog fetch delivered `[chA]`. -/
def mC8b : model :=
  { mC8 with channels := [chA], loading := false, oldArrays := [[]] }

/-- Witness for C8 at a concrete errored state and a `channelsMsg`. -/
theorem last_error_persists_witness :
    mC8.err = some "network unreachable"
    ∧ update resFail mC8 (Msg.channelsMsg [chA]) = some (mC8b, [])
    ∧ mC8b.err.isSome = true :=
  ⟨rfl, rfl,
    last_error_persists resFail mC8 "network unreachable" (Msg.channelsMsg [chA])
      mC8b [] rfl rfl⟩

/-- C8, counterexample: an error recorded by a failed catalog fetch
(`errMsg`) is not cleared by the subsequent successful catalog fetch
(`channelsMsg`) — the same-kind success leaves `err` untouched. -/
theorem error_never_cleared_cex :
    applyEvents resFail initialModel
        [Msg.errMsg "network unreachable", Msg.channelsMsg [chA]]
      = some { channels := [chA], cursor := 0, selected := none,
               err := some "network unreachable", loading := false,
               playerState := PlayerState.stopped, player := none,
               oldArrays := [[]] }
    ∧ (some "network unreachable" : Option String) ≠ none := by
  exact ⟨rfl, by decide⟩

/-- C9: in the initial state (empty catalog, still loading) the
`KeyActivate` handler takes `&m.channels[m.cursor]` on an empty slice
and panics with an index-out-of-range — embedded as `update`
returning `none` instead of the claimed no-op. -/
theorem activate_on_empty_catalog_panics :
    initialModel.channels = []
    ∧ update resFail initialModel (Msg.key Key.activate) = none := by
  exact ⟨rfl, rfl⟩

/-- Resolver succeeding exactly on channel A's pls URL, so that the
switch to channel B fails to resolve. -/
def resA : Resolver :=
  fun u => if u = "plsA" then Except.ok "urlA"
           else Except.error "no stream URL found in PLS file"

/-- The state playing channel A (handle 7) with the cursor moved down
to channel B, reached by load/activate/start/down. -/
def mC3d : model :=
  { channels := [chA, chB], cursor := 1, selected := some (1, 0), err := none,
    loading := false, playerState := PlayerState.playing, player := some 7,
    oldArrays := [[]] }

/-- `mC3d` after the failing `KeyActivate`: the selection has moved to
channel B but nothing else changed. -/
def mC3e : model := { mC3d with selected := some (1, 1) }

/-- `mC3e` after the scheduled `errMsg` completion is delivered. -/
def mC3f : model := { mC3e with err := some "no stream URL found in PLS file" }

/-- C3: playing channel A (`chA`, handle 7), `KeyDown`, then
`KeyActivate` on channel B whose resolution fails.  The handler
returns only the `errMsg`-delivering command — the stop command for
A's handle was built into `cmds` but is discarded, so no stop effect
and no start effect are scheduled; after the error completion the
phase is still `playing` with handle 7 held, not `stopped`. -/
theorem resolution_failure_drops_stop :
    applyEvents resA initialModel
        [Msg.channelsMsg [chA, chB], Msg.key Key.activate,
         Msg.startPlaybackMsg 7, Msg.key Key.down]
      = some mC3d
    ∧ update resA mC3d (Msg.key Key.activate)
        = some (mC3e, [Effect.emitErr "no stream URL found in PLS file"])
    ∧ update resA mC3e (Msg.errMsg "no stream URL found in PLS file")
        = some (mC3f, [])
    ∧ mC3f.playerState = PlayerState.playing
    ∧ mC3f.player = some 7
    ∧ mC3f.err = some "no stream URL found in PLS file" := by
  exact ⟨rfl, rfl, rfl, rfl, rfl, rfl⟩

end SomaFM
